import Mathlib

/-!
Shallow embedding of the Query Orchestration and Confidence-Gated Retrieval
core of the FinancialAssistent repository.

Source files embedded: `orchestrator.py` (`orchestrate_query`,
`get_market_brief`), `api_agent.py` (`fetch_alpha_vantage_data`,
`get_stock_quote`, `get_historical_data`) and `retriever_agent.py`
(`retrieve_info_from_rag`).

Modelling conventions:
- Python floats are modelled as rationals; the external `float(...)` string
  parse and the `%.2f` formatting stay abstract (fields `pfloat` and `fmtPct`
  of the collaborator record `Collab`).
- Python dicts whose keys the code reads are modelled as structures of
  `Option` fields (key present or not); the inner `Global Quote` and
  `Time Series (Daily)` dicts are association lists preserving insertion
  order, since the code relies on key order.
- Python truthiness of `d.get(k)` is `pyGetS`: the key is present and the
  value is a non-empty string.
- External collaborators (Alpha Vantage quote and series, mock news,
  analysis, FAISS similarity search, Gemini generation) are oracle functions
  gathered in `Collab`.
- The regex search
  `(price|quote|stock|performance|historical).*?\b([A-Z]\x7b1,5\x7d)\b` of
  `orchestrate_query` is embedded as `searchStock`, reproducing Python
  `re.search` leftmost-match semantics: scan start positions left to right;
  the five alternatives are pairwise incompatible at any position, the lazy
  gap takes the earliest following standalone uppercase token, `.` does not
  cross a newline, and the trailing word boundary forces the token to be a
  maximal uppercase run of length 1..5 delimited by non-word characters.
-/

/-! ## Character classes and basic string helpers (ASCII, as in the source) -/

def isWordC (c : Char) : Bool := c.isAlpha || c.isDigit || c = '_'

def isPySpace (c : Char) : Bool :=
  c = ' ' || c = '\t' || c = '\n' || c = '\r' || c = '\x0b' || c = '\x0c'

/-- Boolean test that the first list is an initial segment of the second. -/
def listIsPre : List Char → List Char → Bool
  | [], _ => true
  | _ :: _, [] => false
  | a :: as, b :: bs => a = b && listIsPre as bs

/-- Python substring containment `needle in hay`. -/
def containsL (needle : List Char) : List Char → Bool
  | [] => needle.isEmpty
  | c :: cs => listIsPre needle (c :: cs) || containsL needle cs

/-- Python `str.replace(pat, rep)` for a non-empty pattern: left-to-right,
non-overlapping. Structural recursion on a fuel argument (one unit per
consumed character) so that the kernel can evaluate it; the fuel never runs
out because the list shrinks at least as fast as the fuel. -/
def replaceGo (pat rep : List Char) : Nat → List Char → List Char
  | _, [] => []
  | 0, l => l
  | fuel + 1, c :: cs =>
    if !pat.isEmpty && listIsPre pat (c :: cs) then
      rep ++ replaceGo pat rep fuel (cs.drop (pat.length - 1))
    else
      c :: replaceGo pat rep fuel cs

def replaceL (pat rep l : List Char) : List Char := replaceGo pat rep l.length l

/-- Python `str.strip()`. -/
def stripL (l : List Char) : List Char :=
  ((l.dropWhile isPySpace).reverse.dropWhile isPySpace).reverse

def lowerL (l : List Char) : List Char := l.map Char.toLower

/-- Python `sep.join(parts)`. -/
def joinSep (sep : String) : List String → String
  | [] => ""
  | [s] => s
  | s :: rest => s ++ sep ++ joinSep sep rest

/-! ## The ticker regex of `orchestrate_query` (orchestrator.py line 39) -/

/-- Maximal leading run of ASCII uppercase letters. -/
def upRun : List Char → List Char
  | [] => []
  | c :: cs => if c.isUpper then c :: upRun cs else []

/-- Matches `\b([A-Z]\x7b1,5\x7d)\b` at the current position. `prevWord` says
whether the character just before this position is a word character (false at
the start of the string). The group can only match a maximal uppercase run of
length 1 to 5 whose both ends sit at word boundaries. -/
def tokenHere (prevWord : Bool) (l : List Char) : Option (List Char) :=
  let run := upRun l
  if !prevWord && 1 ≤ run.length && run.length ≤ 5 &&
      (match l.drop run.length with
       | [] => true
       | c :: _ => !isWordC c) then
    some run
  else
    none

/-- The lazy gap `.*?` followed by the ticker group: return the earliest
standalone uppercase token from the current position on, where the gap may
not contain a newline (Python `.` does not match `\n`). -/
def scanTicker (prevWord : Bool) : List Char → Option (List Char)
  | [] => none
  | c :: cs =>
    match tokenHere prevWord (c :: cs) with
    | some tok => some tok
    | none => if c = '\n' then none else scanTicker (isWordC c) cs

def triggers : List (List Char) :=
  [['p', 'r', 'i', 'c', 'e'], ['q', 'u', 'o', 't', 'e'], ['s', 't', 'o', 'c', 'k'],
   ['p', 'e', 'r', 'f', 'o', 'r', 'm', 'a', 'n', 'c', 'e'],
   ['h', 'i', 's', 't', 'o', 'r', 'i', 'c', 'a', 'l']]

/-- First alternative of `(price|quote|stock|performance|historical)` matching
at the current position; at most one can match since the five words are
pairwise incompatible. -/
def findTrig (l : List Char) : Option (List Char) :=
  triggers.find? (fun t => listIsPre t l)

/-- Python `re.search` for the full stock regex: earliest start position where
a trigger word is followed by a standalone uppercase token, returning
(group 1, group 2). The scan after the trigger starts with `prevWord = true`
because every alternative ends in a letter. -/
def searchStock : List Char → Option (List Char × List Char)
  | [] => none
  | c :: cs =>
    match findTrig (c :: cs) with
    | some t =>
      match scanTicker true ((c :: cs).drop t.length) with
      | some tok => some (t, tok)
      | none => searchStock cs
    | none => searchStock cs

/-! ## Intent classification (the if/elif chain of `orchestrate_query`) -/

inductive Intent where
  | quote (ticker : String)
  | historical (ticker : String)
  | news (topic : String)
  | analysis (tickers : List String)
  | explain (topic : String)
  | unclassified
deriving Repr, DecidableEq

/-- The routing decisions of `orchestrate_query`, in source order: the ticker
regex first, then news keywords, analysis keywords, explain keywords, and the
default route. The news topic is the lower-cased query with `news about` and
`latest news on` removed and stripped; the analysis ticker list is the fixed
pair of the source; the explain topic is the full original query. -/
def classify (query : String) : Intent :=
  let ql := lowerL query.data
  match searchStock query.data with
  | some (_t, tok) =>
    if containsL "historical".data ql || containsL "performance".data ql then
      Intent.historical (String.mk (tok.map Char.toUpper))
    else
      Intent.quote (String.mk (tok.map Char.toUpper))
  | none =>
    if containsL "news".data ql || containsL "headlines".data ql ||
        containsL "filings".data ql then
      Intent.news (String.mk (stripL (replaceL "latest news on".data []
        (replaceL "news about".data [] ql))))
    else if containsL "analyze".data ql || containsL "risk".data ql ||
        containsL "volatility".data ql || containsL "returns".data ql ||
        containsL "portfolio".data ql then
      Intent.analysis ["AAPL", "GOOGL"]
    else if containsL "explain".data ql || containsL "what is".data ql ||
        containsL "tell me about".data ql || containsL "define".data ql then
      Intent.explain query
    else
      Intent.unclassified

/-! ## Alpha Vantage response dicts -/

/-- An Alpha Vantage style response dict, with one `Option` field per key the
code reads. `none` means the key is absent. -/
structure AVData where
  errorMessage : Option String := none
  note : Option String := none
  information : Option String := none
  globalQuote : Option (List (String × String)) := none
  timeSeries : Option (List (String × String)) := none
deriving Repr, DecidableEq

def emptyAV : AVData := ⟨none, none, none, none, none⟩

/-- Python truthiness of the whole dict: it has at least one key. -/
def AVData.isTruthy (d : AVData) : Bool :=
  d.errorMessage.isSome || d.note.isSome || d.information.isSome ||
    d.globalQuote.isSome || d.timeSeries.isSome

/-- Python truthiness of `d.get(key)` for a string-valued key: present and
non-empty. Returns the value when truthy. -/
def pyGetS : Option String → Option String
  | some s => if s = "" then none else some s
  | none => none

/-- Python truthiness of `d.get("Time Series (Daily)")`: present and
non-empty. -/
def tsTruthy : Option (List (String × String)) → Bool
  | some l => !l.isEmpty
  | none => false

/-- Dict lookup on an association list (Python dict keys are unique, lookup
returns the value stored for the key). -/
def alookup : List (String × String) → String → Option String
  | [], _ => none
  | (k, v) :: rest, key => if k = key then some v else alookup rest key

/-- Python string interpolation of a `dict.get` result: `None` prints as the
string `"None"`. -/
def pyStrOpt : Option String → String
  | some s => s
  | none => "None"

/-! ## Collaborators -/

/-- The external collaborators consumed by the orchestrator, plus the two
abstract float operations (string-to-float parsing and `%.2f` formatting). -/
structure Collab where
  getStockQuote : String → AVData
  getHistoricalData : String → AVData
  getNews : String → List String
  analyzeRisk : List String → String
  simSearch : String → List (String × ℚ)
  gen : String → String
  pfloat : String → ℚ
  fmtPct : ℚ → String

/-! ## retriever_agent.py: `retrieve_info_from_rag` -/

/-- The body of `retrieve_info_from_rag` applied to the similarity-search
result `docs_with_scores`: empty result gives the sentinel pair, otherwise
the double-newline join of the contents and the mean of the per-match
confidences `max(0, 1 - score / 1.0)`. -/
def retrieve_info_from_rag (docsWithScores : List (String × ℚ)) : String × ℚ :=
  if docsWithScores.isEmpty then
    ("No relevant documents found.", 0)
  else
    let contents := docsWithScores.map Prod.fst
    let scores := docsWithScores.map (fun ds => max 0 (1 - ds.2 / 1))
    (joinSep "\n\n" contents, scores.sum / (scores.length : ℚ))

/-! ## orchestrator.py: the handling paths of `orchestrate_query` -/

def historicalResponse (c : Collab) (ticker : String) : String :=
  let data := c.getHistoricalData ticker
  match pyGetS data.note with
  | some n => n
  | none =>
    match pyGetS data.information with
    | some i => i
    | none =>
      if data.isTruthy && tsTruthy data.timeSeries then
        let ts := data.timeSeries.getD []
        let latestDate := (ts.headD ("", "")).1
        let latestClose := (alookup ts latestDate).getD ""
        let dates := (ts.map Prod.fst).take 7
        let usable := dates.filter (fun d => (alookup ts d).isSome)
        let prices := usable.map (fun d => c.pfloat ((alookup ts d).getD ""))
        if 1 < prices.length then
          "Historical performance for " ++ ticker ++ ": Latest close on " ++
            latestDate ++ " was " ++ latestClose ++ ". Over the last " ++
            toString prices.length ++ " days, it changed by " ++
            c.fmtPct ((prices.headD 0 - prices.getLastD 0) / prices.getLastD 0 * 100) ++
            "%."
        else
          "Latest close for " ++ ticker ++ " on " ++ latestDate ++ " was " ++
            latestClose ++ "."
      else
        "⚠️ Could not retrieve historical data for " ++ ticker ++ "."

def quoteResponse (c : Collab) (ticker : String) : String :=
  let data := c.getStockQuote ticker
  match pyGetS data.note with
  | some n => n
  | none =>
    match pyGetS data.information with
    | some i => i
    | none =>
      if data.isTruthy && data.globalQuote.isSome &&
          !(data.globalQuote.getD []).isEmpty then
        let gq := data.globalQuote.getD []
        "📈 " ++ ticker ++ " Stock Quote:\n" ++
          "Open: " ++ pyStrOpt (alookup gq "02. open") ++ "\n" ++
          "High: " ++ pyStrOpt (alookup gq "03. high") ++ "\n" ++
          "Low: " ++ pyStrOpt (alookup gq "04. low") ++ "\n" ++
          "Price: " ++ pyStrOpt (alookup gq "05. price") ++ "\n" ++
          "Volume: " ++ pyStrOpt (alookup gq "06. volume") ++ "\n" ++
          "Last Trading Day: " ++ pyStrOpt (alookup gq "07. latest trading day")
      else
        "⚠️ Could not retrieve live quote for " ++ ticker ++ "."

def newsResponse (c : Collab) (topic : String) : String :=
  let news := c.getNews topic
  if !news.isEmpty then
    "📰 Latest News:\n" ++ joinSep "\n" (news.map (fun n => "- " ++ n))
  else
    "⚠️ Could not retrieve financial news at this time."

def analysisResponse (c : Collab) (tickers : List String) : String :=
  "📊 Financial Analysis for " ++ joinSep ", " tickers ++ ":\n" ++
    c.analyzeRisk tickers

def explainResponse (c : Collab) (query : String) : String :=
  let rag := retrieve_info_from_rag (c.simSearch query)
  if rag.2 < 0.7 then
    "I couldn\x27t find very specific info, but here\x27s what I know:\n\n" ++
      c.gen ("Explain this concept: " ++ query)
  else
    "📘 Here\x27s what I found:\n\n" ++
      c.gen ("Explain this based on context:\n\n" ++ rag.1 ++
        "\n\nUser asked: " ++ query)

/-- `orchestrate_query`: route by the classified intent and compose the
corresponding handler's answer. -/
def orchestrate_query (c : Collab) (query : String) : String :=
  match classify query with
  | Intent.historical t => historicalResponse c t
  | Intent.quote t => quoteResponse c t
  | Intent.news topic => newsResponse c topic
  | Intent.analysis tickers => analysisResponse c tickers
  | Intent.explain topic => explainResponse c topic
  | Intent.unclassified =>
      c.gen ("User asked: " ++ query ++ ". Please respond as a financial assistant.")

/-! ## orchestrator.py: `get_market_brief` -/

/-- One line of the ticker loop body of `get_market_brief` (executed when the
`Note` early return did not fire). -/
def briefLine (data : AVData) (ticker : String) : String :=
  if data.isTruthy && data.globalQuote.isSome then
    let gq := data.globalQuote.getD []
    ticker ++ ": $" ++ (alookup gq "05. price").getD "N/A" ++
      " (Change: " ++ (alookup gq "09. change").getD "N/A" ++ ")"
  else
    ticker ++ ": Quote unavailable."

/-- The ticker loop of `get_market_brief`: accumulate one line per ticker, or
return the provider `Note` of the first ticker whose quote carries a truthy
`Note` (the loop checks only the `Note` key, not `Information`). -/
def briefLoop (c : Collab) : List String → Except String (List String)
  | [] => Except.ok []
  | t :: ts =>
    let data := c.getStockQuote t
    match pyGetS data.note with
    | some n => Except.error n
    | none => (briefLoop c ts).map (fun rest => briefLine data t :: rest)

def briefTickers : List String := ["SPY", "QQQ", "DIA"]

def get_market_brief (c : Collab) : String :=
  match briefLoop c briefTickers with
  | Except.error n => n
  | Except.ok parts0 =>
    let news := c.getNews "market"
    let parts :=
      if !news.isEmpty then
        parts0 ++ ["\n🗞️ News:"] ++ (news.take 3).map (fun h => "- " ++ h)
      else
        parts0
    c.gen ("Summarize this market brief:\n" ++ joinSep "\n" parts)

/-! ## api_agent.py: `fetch_alpha_vantage_data` and its wrappers -/

/-- `fetch_alpha_vantage_data` applied to the decoded upstream payload: an
`Error Message` key raises (modelled as `Except.error`), a `Note` key makes
the function return the empty dict, otherwise the payload passes through. -/
def fetch_alpha_vantage_data (data : AVData) : Except String AVData :=
  if data.errorMessage.isSome then
    Except.error (data.errorMessage.getD "")
  else if data.note.isSome then
    Except.ok emptyAV
  else
    Except.ok data

def get_stock_quote (upstream : String → AVData) (ticker : String) :
    Except String AVData :=
  fetch_alpha_vantage_data (upstream ticker)

def get_historical_data (upstream : String → AVData) (ticker : String) :
    Except String AVData :=
  fetch_alpha_vantage_data (upstream ticker)

/-! ## Concrete collaborator instances used by witnesses and counterexamples -/

def collab0 : Collab where
  getStockQuote := fun _ => emptyAV
  getHistoricalData := fun _ => emptyAV
  getNews := fun _ => []
  analyzeRisk := fun _ => ""
  simSearch := fun _ => []
  gen := fun p => "GEN: " ++ p
  pfloat := fun _ => 0
  fmtPct := fun _ => "0.00"

/-! ## C1: retrieval confidence is the mean of clamped distances -/

/-- C1: for every sequence of retrieval matches with non-negative distance
scores, `retrieve_info_from_rag` returns an aggregate confidence equal to the
arithmetic mean of `max 0 (1 - d)` over the matches, and this value lies in
the interval from 0 to 1; the empty match sequence returns exactly the pair
of the sentinel text and confidence 0. -/
theorem claim1_retrieval_confidence (dws : List (String × ℚ))
    (hne : dws ≠ []) (hnn : ∀ p ∈ dws, 0 ≤ p.2) :
    (retrieve_info_from_rag dws).2 =
      (dws.map (fun p => max 0 (1 - p.2))).sum / (dws.length : ℚ) ∧
    0 ≤ (retrieve_info_from_rag dws).2 ∧
    (retrieve_info_from_rag dws).2 ≤ 1 ∧
    retrieve_info_from_rag [] = ("No relevant documents found.", 0) := by
  have hie : dws.isEmpty = false := by
    cases dws with
    | nil => exact absurd rfl hne
    | cons a l => rfl
  have hlen : 0 < dws.length := List.length_pos.mpr hne
  have hlenQ : (0 : ℚ) < (dws.length : ℚ) := by exact_mod_cast hlen
  have hdiv1 : dws.map (fun ds : String × ℚ => max 0 (1 - ds.2 / 1)) =
      dws.map (fun p : String × ℚ => max 0 (1 - p.2)) := by
    simp [div_one]
  have hconf : (retrieve_info_from_rag dws).2 =
      (dws.map (fun p : String × ℚ => max 0 (1 - p.2))).sum / (dws.length : ℚ) := by
    simp [retrieve_info_from_rag, hie, hdiv1]
  have hmem : ∀ x ∈ dws.map (fun p : String × ℚ => max 0 (1 - p.2)),
      0 ≤ x ∧ x ≤ 1 := by
    intro x hx
    rcases List.mem_map.mp hx with ⟨p, hp, hfx⟩
    refine ⟨hfx ▸ le_max_left _ _, ?_⟩
    have h2 : (1 : ℚ) - p.2 ≤ 1 := by
      have := hnn p hp
      linarith
    have : max 0 (1 - p.2) ≤ 1 := max_le (by norm_num) h2
    exact hfx ▸ this
  have hsum0 : 0 ≤ (dws.map (fun p : String × ℚ => max 0 (1 - p.2))).sum :=
    List.sum_nonneg (fun x hx => (hmem x hx).1)
  have hsum1 : (dws.map (fun p : String × ℚ => max 0 (1 - p.2))).sum ≤
      (dws.length : ℚ) := by
    have := List.sum_le_card_nsmul (dws.map (fun p : String × ℚ => max 0 (1 - p.2)))
      1 (fun x hx => (hmem x hx).2)
    simpa using this
  refine ⟨hconf, ?_, ?_, rfl⟩
  · rw [hconf]
    exact div_nonneg hsum0 (le_of_lt hlenQ)
  · rw [hconf]
    exact (div_le_one hlenQ).mpr hsum1

/-- Witness for C1 at a single match with distance 1/2: confidence is the
mean 1/2 and lies in the unit interval. -/
theorem claim1_retrieval_confidence_witness :
    (retrieve_info_from_rag [("doc", 1/2)]).2 =
      (([("doc", (1 : ℚ)/2)].map (fun p => max 0 (1 - p.2))).sum /
        (([("doc", (1 : ℚ)/2)] : List (String × ℚ)).length : ℚ)) ∧
    0 ≤ (retrieve_info_from_rag [("doc", 1/2)]).2 ∧
    (retrieve_info_from_rag [("doc", 1/2)]).2 ≤ 1 ∧
    retrieve_info_from_rag [] = ("No relevant documents found.", 0) :=
  claim1_retrieval_confidence [("doc", 1/2)] (by simp) (by norm_num)

/-! ## C2: the confidence gate of the Explain path -/

/-- C2: for every query routed to the Explain path, confidence at least 0.7
forwards the retrieved context together with the query to the generation
collaborator under the found-via-retrieval header, while confidence below 0.7
discards the retrieved context, asks generation to answer on its own, and uses
the low-confidence fallback header. -/
theorem claim2_explain_confidence_gate (c : Collab) (q : String)
    (hq : classify q = Intent.explain q) :
    ((0.7 : ℚ) ≤ (retrieve_info_from_rag (c.simSearch q)).2 →
      orchestrate_query c q =
        "📘 Here\x27s what I found:\n\n" ++
          c.gen ("Explain this based on context:\n\n" ++
            (retrieve_info_from_rag (c.simSearch q)).1 ++ "\n\nUser asked: " ++ q)) ∧
    ((retrieve_info_from_rag (c.simSearch q)).2 < (0.7 : ℚ) →
      orchestrate_query c q =
        "I couldn\x27t find very specific info, but here\x27s what I know:\n\n" ++
          c.gen ("Explain this concept: " ++ q)) := by
  constructor
  · intro h
    have hnl : ¬ ((retrieve_info_from_rag (c.simSearch q)).2 < (0.7 : ℚ)) :=
      not_lt.mpr h
    simp [orchestrate_query, hq, explainResponse, hnl]
  · intro h
    simp [orchestrate_query, hq, explainResponse, h]

def collabRag : Collab :=
  { collab0 with simSearch := fun _ => [("Diversification is a strategy.", 29/50)] }

/-- Witness for C2 at the spec scenario: the query about diversification with
retrieval confidence 0.42 takes the low-confidence fallback. -/
theorem claim2_explain_confidence_gate_witness :
    orchestrate_query collabRag "Tell me about diversification" =
      "I couldn\x27t find very specific info, but here\x27s what I know:\n\n" ++
        collabRag.gen ("Explain this concept: " ++ "Tell me about diversification") :=
  (claim2_explain_confidence_gate collabRag "Tell me about diversification"
    (by decide)).2 (by norm_num [collabRag, collab0, retrieve_info_from_rag])

/-! ## C4: provider signals pass through the Quote and Historical paths -/

/-- C4: for every query routed to the Quote or Historical path whose
collaborator response carries a truthy rate-limit `Note` (or, failing that, a
truthy `Information` message), the dispatcher returns that message verbatim as
the final answer. -/
theorem claim4_provider_signal_passthrough (c : Collab) (q t m : String) :
    (classify q = Intent.quote t →
      (pyGetS (c.getStockQuote t).note = some m ∨
        (pyGetS (c.getStockQuote t).note = none ∧
          pyGetS (c.getStockQuote t).information = some m)) →
      orchestrate_query c q = m) ∧
    (classify q = Intent.historical t →
      (pyGetS (c.getHistoricalData t).note = some m ∨
        (pyGetS (c.getHistoricalData t).note = none ∧
          pyGetS (c.getHistoricalData t).information = some m)) →
      orchestrate_query c q = m) := by
  constructor
  · intro hq hsig
    rcases hsig with h | ⟨h1, h2⟩
    · simp [orchestrate_query, hq, quoteResponse, h]
    · simp [orchestrate_query, hq, quoteResponse, h1, h2]
  · intro hq hsig
    rcases hsig with h | ⟨h1, h2⟩
    · simp [orchestrate_query, hq, historicalResponse, h]
    · simp [orchestrate_query, hq, historicalResponse, h1, h2]

def collabNote : Collab :=
  { collab0 with getStockQuote := fun _ =>
      ⟨none, some "Thank you for using Alpha Vantage! Our standard API rate limit is 25 requests per day.", none, none, none⟩ }

/-- Witness for C4: a quote query whose collaborator answers with a rate-limit
note gets exactly that note back. -/
theorem claim4_provider_signal_passthrough_witness :
    orchestrate_query collabNote "price IBM" =
      "Thank you for using Alpha Vantage! Our standard API rate limit is 25 requests per day." :=
  (claim4_provider_signal_passthrough collabNote "price IBM" "IBM"
      "Thank you for using Alpha Vantage! Our standard API rate limit is 25 requests per day.").1
    (by decide) (Or.inl (by decide))

/-! ## C8: the TSLA quote scenario -/

/-- C8: the query about the price of TSLA classifies as Quote TSLA, and on a
successful quote payload the answer is the fixed multi-line summary starting
with the TSLA quote header and listing Open, High, Low, Price, Volume and
Last Trading Day in that order. -/
theorem claim8_tsla_quote_scenario (c : Collab) (gq : List (String × String))
    (hnote : pyGetS (c.getStockQuote "TSLA").note = none)
    (hinfo : pyGetS (c.getStockQuote "TSLA").information = none)
    (hgq : (c.getStockQuote "TSLA").globalQuote = some gq)
    (hne : gq ≠ []) :
    classify "What\x27s the price of TSLA?" = Intent.quote "TSLA" ∧
    orchestrate_query c "What\x27s the price of TSLA?" =
      "📈 TSLA Stock Quote:\n" ++
        "Open: " ++ pyStrOpt (alookup gq "02. open") ++ "\n" ++
        "High: " ++ pyStrOpt (alookup gq "03. high") ++ "\n" ++
        "Low: " ++ pyStrOpt (alookup gq "04. low") ++ "\n" ++
        "Price: " ++ pyStrOpt (alookup gq "05. price") ++ "\n" ++
        "Volume: " ++ pyStrOpt (alookup gq "06. volume") ++ "\n" ++
        "Last Trading Day: " ++ pyStrOpt (alookup gq "07. latest trading day") ∧
    (∃ rest, orchestrate_query c "What\x27s the price of TSLA?" =
      "📈 TSLA Stock Quote:" ++ rest) := by
  have hc : classify "What\x27s the price of TSLA?" = Intent.quote "TSLA" := by decide
  have htr : (c.getStockQuote "TSLA").isTruthy = true := by
    simp [AVData.isTruthy, hgq]
  have hie : gq.isEmpty = false := by
    cases gq with
    | nil => exact absurd rfl hne
    | cons a l => rfl
  have hmain : orchestrate_query c "What\x27s the price of TSLA?" =
      "📈 TSLA Stock Quote:\n" ++
        "Open: " ++ pyStrOpt (alookup gq "02. open") ++ "\n" ++
        "High: " ++ pyStrOpt (alookup gq "03. high") ++ "\n" ++
        "Low: " ++ pyStrOpt (alookup gq "04. low") ++ "\n" ++
        "Price: " ++ pyStrOpt (alookup gq "05. price") ++ "\n" ++
        "Volume: " ++ pyStrOpt (alookup gq "06. volume") ++ "\n" ++
        "Last Trading Day: " ++ pyStrOpt (alookup gq "07. latest trading day") := by
    simp [orchestrate_query, hc, quoteResponse, hnote, hinfo, hgq, htr, hie,
      String.append_assoc]
  refine ⟨hc, hmain, ?_⟩
  have hm2 := hmain
  simp only [String.append_assoc] at hm2
  obtain ⟨y, hy⟩ : ∃ y, orchestrate_query c "What\x27s the price of TSLA?" =
      "📈 TSLA Stock Quote:\n" ++ y := ⟨_, hm2⟩
  have hlit : "📈 TSLA Stock Quote:\n" = "📈 TSLA Stock Quote:" ++ "\n" := by decide
  exact ⟨"\n" ++ y, by rw [hy, hlit, String.append_assoc]⟩

def tslaQuote : List (String × String) :=
  [("02. open", "250.0"), ("03. high", "255.0"), ("04. low", "248.0"),
   ("05. price", "252.0"), ("06. volume", "100000"),
   ("07. latest trading day", "2025-06-02")]

def collabTsla : Collab :=
  { collab0 with getStockQuote := fun _ => ⟨none, none, none, some tslaQuote, none⟩ }

/-- Witness for C8 at a concrete successful payload. -/
theorem claim8_tsla_quote_scenario_witness :
    classify "What\x27s the price of TSLA?" = Intent.quote "TSLA" ∧
    orchestrate_query collabTsla "What\x27s the price of TSLA?" =
      "📈 TSLA Stock Quote:\n" ++
        "Open: " ++ pyStrOpt (alookup tslaQuote "02. open") ++ "\n" ++
        "High: " ++ pyStrOpt (alookup tslaQuote "03. high") ++ "\n" ++
        "Low: " ++ pyStrOpt (alookup tslaQuote "04. low") ++ "\n" ++
        "Price: " ++ pyStrOpt (alookup tslaQuote "05. price") ++ "\n" ++
        "Volume: " ++ pyStrOpt (alookup tslaQuote "06. volume") ++ "\n" ++
        "Last Trading Day: " ++ pyStrOpt (alookup tslaQuote "07. latest trading day") ∧
    (∃ rest, orchestrate_query collabTsla "What\x27s the price of TSLA?" =
      "📈 TSLA Stock Quote:" ++ rest) :=
  claim8_tsla_quote_scenario collabTsla tslaQuote (by decide) (by decide)
    (by decide) (by decide)

/-! ## C9: news formatting -/

/-- Helper: prepending a header line to a newline join is the newline join
with the header as first element. -/
theorem joinSep_header (hdr x : String) (xs : List String) :
    (hdr ++ "\n") ++ joinSep "\n" (x :: xs) = joinSep "\n" (hdr :: x :: xs) := by
  cases xs <;> simp [joinSep, String.append_assoc]

/-- C9: for every News query whose collaborator returns a non-empty sequence
of headlines, the output is the newline join of the single header line and one
dash-prefixed line per headline, preserving order and count; an empty headline
sequence yields the typed fallback string. -/
theorem claim9_news_formatting (c : Collab) (q topic : String)
    (hq : classify q = Intent.news topic) :
    (c.getNews topic ≠ [] →
      orchestrate_query c q =
        joinSep "\n" ("📰 Latest News:" :: (c.getNews topic).map (fun n => "- " ++ n)) ∧
      ((c.getNews topic).map (fun n => "- " ++ n)).length = (c.getNews topic).length) ∧
    (c.getNews topic = [] →
      orchestrate_query c q = "⚠️ Could not retrieve financial news at this time.") := by
  constructor
  · intro hne
    constructor
    · have hcode : orchestrate_query c q =
          "📰 Latest News:\n" ++ joinSep "\n" ((c.getNews topic).map (fun n => "- " ++ n)) := by
        have hie : (c.getNews topic).isEmpty = false := by
          cases hx : c.getNews topic with
          | nil => exact absurd hx hne
          | cons a l => rfl
        simp [orchestrate_query, hq, newsResponse, hie]
      rw [hcode]
      cases hx : c.getNews topic with
      | nil => exact absurd hx hne
      | cons a l =>
        have hlit : "📰 Latest News:\n" = "📰 Latest News:" ++ "\n" := by decide
        rw [hlit, List.map_cons, joinSep_header]
    · simp
  · intro hz
    simp [orchestrate_query, hq, newsResponse, hz, joinSep]

def collabNews : Collab :=
  { collab0 with getNews := fun _ => ["h1", "h2", "h3"] }

/-- Witness for C9 at the spec scenario with three headlines. -/
theorem claim9_news_formatting_witness :
    orchestrate_query collabNews "news about AAPL" =
      joinSep "\n" ("📰 Latest News:" ::
        (collabNews.getNews "aapl").map (fun n => "- " ++ n)) ∧
    ((collabNews.getNews "aapl").map (fun n => "- " ++ n)).length =
      (collabNews.getNews "aapl").length :=
  (claim9_news_formatting collabNews "news about AAPL" "aapl" (by decide)).1
    (by decide)

/-! ## C3: the market brief and provider signals -/

def quoteOf (price change : String) : AVData :=
  ⟨none, none, none, some [("05. price", price), ("09. change", change)], none⟩

def collabInfoSignal : Collab :=
  { collab0 with
      getStockQuote := fun t =>
        if t = "SPY" then ⟨none, none, some "We have detected many API calls.", none, none⟩
        else if t = "QQQ" then quoteOf "101.0" "1.0"
        else quoteOf "102.0" "2.0",
      gen := fun p => p }

/-- Counterexample to C3 as stated: when the SPY quote call returns an
informational signal (an `Information` key, no `Note`), `get_market_brief`
does not return that signal alone; the loop keeps going, emits a
`Quote unavailable` line for SPY together with the remaining ticker lines, and
hands the assembled partial brief to the summarizer. The loop checks only the
`Note` key. -/
theorem claim3_counterexample :
    pyGetS (collabInfoSignal.getStockQuote "SPY").information =
      some "We have detected many API calls." ∧
    get_market_brief collabInfoSignal =
      "Summarize this market brief:\nSPY: Quote unavailable.\nQQQ: $101.0 (Change: 1.0)\nDIA: $102.0 (Change: 2.0)" ∧
    get_market_brief collabInfoSignal ≠ "We have detected many API calls." := by
  refine ⟨by decide, by decide, by decide⟩

/-- C3 amended: when any of the three index-ticker quote calls returns a
truthy rate-limit `Note` signal, `get_market_brief` returns the first such
signal alone and never a partial ticker list; an `Information` signal does not
short-circuit the loop (see the counterexample). -/
theorem claim3_note_short_circuit (c : Collab) (n : String)
    (h : pyGetS ((c.getStockQuote "SPY").note) = some n ∨
      (pyGetS ((c.getStockQuote "SPY").note) = none ∧
        pyGetS ((c.getStockQuote "QQQ").note) = some n) ∨
      (pyGetS ((c.getStockQuote "SPY").note) = none ∧
        pyGetS ((c.getStockQuote "QQQ").note) = none ∧
        pyGetS ((c.getStockQuote "DIA").note) = some n)) :
    get_market_brief c = n := by
  rcases h with h1 | ⟨h1, h2⟩ | ⟨h1, h2, h3⟩
  · simp [get_market_brief, briefTickers, briefLoop, h1]
  · simp [get_market_brief, briefTickers, briefLoop, Except.map, h1, h2]
  · simp [get_market_brief, briefTickers, briefLoop, Except.map, h1, h2, h3]

def collabBriefNote : Collab :=
  { collab0 with
      getStockQuote := fun t =>
        if t = "QQQ" then ⟨none, some "API rate limit reached.", none, none, none⟩
        else quoteOf "100.0" "0.5" }

/-- Witness for the amended C3: the second ticker carries the note and the
brief is exactly that note. -/
theorem claim3_note_short_circuit_witness :
    get_market_brief collabBriefNote = "API rate limit reached." :=
  claim3_note_short_circuit collabBriefNote "API rate limit reached."
    (Or.inr (Or.inl (by refine ⟨by decide, by decide⟩)))

/-! ## C10: `fetch_alpha_vantage_data` and rate-limit notes -/

def dualKeyAV : AVData :=
  ⟨some "Invalid API call.", some "API rate limit reached.", none, none, none⟩

/-- Counterexample to C10 as stated: an upstream payload that carries a `Note`
key together with an `Error Message` key raises (the `Error Message` branch
fires first), so `fetch_alpha_vantage_data` does not return an empty mapping
for it. -/
theorem claim10_counterexample :
    dualKeyAV.note.isSome = true ∧
    fetch_alpha_vantage_data dualKeyAV ≠ Except.ok emptyAV ∧
    fetch_alpha_vantage_data dualKeyAV = Except.error "Invalid API call." := by
  refine ⟨rfl, ?_, rfl⟩
  intro hcontra
  simp [fetch_alpha_vantage_data, dualKeyAV] at hcontra

/-- C10 amended: every upstream payload with a `Note` key and no
`Error Message` key is turned into the empty mapping; consequently no
successful fetch result carries a `Note` key, the dispatcher's `Note`
pass-through branches are unreachable through this collaborator, and a
rate-limited Quote, Historical or market-brief step produces the missing-data
fallback instead of the provider's message. -/
theorem claim10_note_strips_to_fallback (r : AVData)
    (hn : r.note.isSome = true) (he : r.errorMessage = none) :
    fetch_alpha_vantage_data r = Except.ok emptyAV ∧
    (∀ s d, fetch_alpha_vantage_data s = Except.ok d → d.note = none) ∧
    (∀ (up : String → AVData) (t : String) (d : AVData),
      get_stock_quote up t = Except.ok d → d.note = none) ∧
    (∀ (up : String → AVData) (t : String) (d : AVData),
      get_historical_data up t = Except.ok d → d.note = none) ∧
    (∀ (c : Collab) (q t : String), classify q = Intent.quote t →
      c.getStockQuote t = emptyAV →
      orchestrate_query c q = "⚠️ Could not retrieve live quote for " ++ t ++ ".") ∧
    (∀ (c : Collab) (q t : String), classify q = Intent.historical t →
      c.getHistoricalData t = emptyAV →
      orchestrate_query c q = "⚠️ Could not retrieve historical data for " ++ t ++ ".") ∧
    briefLine emptyAV "SPY" = "SPY: Quote unavailable." := by
  have hfetch : ∀ s d, fetch_alpha_vantage_data s = Except.ok d → d.note = none := by
    intro s d hs
    by_cases he2 : s.errorMessage.isSome
    · simp [fetch_alpha_vantage_data, he2] at hs
    · by_cases hn2 : s.note.isSome
      · simp [fetch_alpha_vantage_data, he2, hn2] at hs
        simp [← hs, emptyAV]
      · simp [fetch_alpha_vantage_data, he2, hn2] at hs
        have : s.note = none := Option.not_isSome_iff_eq_none.mp hn2
        rw [← hs]
        exact this
  refine ⟨?_, hfetch, ?_, ?_, ?_, ?_, by decide⟩
  · simp [fetch_alpha_vantage_data, he, hn]
  · intro up t d hs
    exact hfetch (up t) d hs
  · intro up t d hs
    exact hfetch (up t) d hs
  · intro c q t hq hc
    simp [orchestrate_query, hq, quoteResponse, hc, emptyAV, pyGetS,
      AVData.isTruthy]
  · intro c q t hq hc
    simp [orchestrate_query, hq, historicalResponse, hc, emptyAV, pyGetS,
      AVData.isTruthy, tsTruthy]

/-- Witness for the amended C10 at a note-only payload. -/
theorem claim10_note_strips_to_fallback_witness :
    fetch_alpha_vantage_data ⟨none, some "API rate limit reached.", none, none, none⟩ =
      Except.ok emptyAV :=
  (claim10_note_strips_to_fallback
    ⟨none, some "API rate limit reached.", none, none, none⟩ (by decide) rfl).1

/-! ## C5: historical percentage change -/

theorem alookup_isSome_of_mem (ts : List (String × String)) (d : String)
    (h : d ∈ ts.map Prod.fst) : (alookup ts d).isSome = true := by
  induction ts with
  | nil => simp at h
  | cons a rest ih =>
    by_cases hd : a.1 = d
    · simp [alookup, hd]
    · have h1 : d ∈ a.1 :: rest.map Prod.fst := by
        rw [List.map_cons] at h
        exact h
      have h2 : d ∈ rest.map Prod.fst := by
        rcases List.mem_cons.mp h1 with he | h2
        · exact absurd he.symm hd
        · exact h2
      simp only [alookup]
      rw [if_neg hd]
      exact ih h2

theorem alookup_of_nodup (ts : List (String × String))
    (hnd : (ts.map Prod.fst).Nodup) :
    ∀ p ∈ ts, alookup ts p.1 = some p.2 := by
  induction ts with
  | nil => simp
  | cons a rest ih =>
    intro p hp
    have hnd2 : a.1 ∉ rest.map Prod.fst ∧ (rest.map Prod.fst).Nodup := by
      rw [List.map_cons] at hnd
      exact List.nodup_cons.mp hnd
    rcases List.mem_cons.mp hp with he | hp2
    · subst he
      simp [alookup]
    · have hne : a.1 ≠ p.1 := by
        intro he
        exact hnd2.1 (he ▸ List.mem_map_of_mem Prod.fst hp2)
      simp only [alookup]
      rw [if_neg hne]
      exact ih hnd2.2 p hp2

/-- The spec-side list of the most recent `min 7 n` closes, parsed to
numbers. -/
def recentCloses (c : Collab) (ts : List (String × String)) : List ℚ :=
  (ts.take 7).map (fun e => c.pfloat e.2)

/-- C5: for every Historical query with a non-empty daily series (unique date
keys, no provider signal), the reported percentage change is exactly
`(first - last) / last * 100` over the most recent `min 7 n` closes, where
`first` is the most recent close and `last` the oldest of those points; with a
single point only the latest close is reported; with an absent or empty series
the typed fallback naming the ticker is returned. -/
theorem claim5_historical_change (c : Collab) (q t : String)
    (hq : classify q = Intent.historical t)
    (hnote : pyGetS (c.getHistoricalData t).note = none)
    (hinfo : pyGetS (c.getHistoricalData t).information = none) :
    (∀ p rest, (c.getHistoricalData t).timeSeries = some (p :: rest) →
      ((p :: rest).map Prod.fst).Nodup →
      (2 ≤ (p :: rest).length →
        orchestrate_query c q =
          "Historical performance for " ++ t ++ ": Latest close on " ++ p.1 ++
            " was " ++ p.2 ++ ". Over the last " ++
            toString (min 7 (p :: rest).length) ++ " days, it changed by " ++
            c.fmtPct (((recentCloses c (p :: rest)).headD 0 -
                (recentCloses c (p :: rest)).getLastD 0) /
              (recentCloses c (p :: rest)).getLastD 0 * 100) ++ "%.") ∧
      ((p :: rest).length = 1 →
        orchestrate_query c q =
          "Latest close for " ++ t ++ " on " ++ p.1 ++ " was " ++ p.2 ++ ".")) ∧
    (((c.getHistoricalData t).timeSeries = none ∨
        (c.getHistoricalData t).timeSeries = some []) →
      orchestrate_query c q =
        "⚠️ Could not retrieve historical data for " ++ t ++ ".") := by
  constructor
  · intro p rest hts hnd
    have hfilter :
        (((p :: rest).map Prod.fst).take 7).filter
            (fun d => (alookup (p :: rest) d).isSome) =
          ((p :: rest).map Prod.fst).take 7 := by
      apply List.filter_eq_self.mpr
      intro d hd
      exact alookup_isSome_of_mem (p :: rest) d (List.take_subset 7 _ hd)
    have hprices :
        ((((p :: rest).map Prod.fst).take 7).map
            (fun d => c.pfloat ((alookup (p :: rest) d).getD ""))) =
          recentCloses c (p :: rest) := by
      rw [← List.map_take Prod.fst (p :: rest) 7, List.map_map]
      apply List.map_congr_left
      intro e he
      have : alookup (p :: rest) e.1 = some e.2 :=
        alookup_of_nodup (p :: rest) hnd e (List.take_subset 7 _ he)
      simp [this]
    have hlatest : alookup (p :: rest) p.1 = some p.2 := by
      simp [alookup]
    have hlen : (recentCloses c (p :: rest)).length = min 7 (p :: rest).length := by
      simp [recentCloses]
      omega
    constructor
    · intro h2
      have hlt : 1 < (recentCloses c (p :: rest)).length := by
        rw [hlen]
        omega
      simp only [orchestrate_query, hq, historicalResponse, hnote, hinfo, hts,
        tsTruthy, AVData.isTruthy, Option.isSome_some, Bool.or_true,
        Option.getD_some, List.headD_cons, List.isEmpty_cons, Bool.not_false,
        Bool.and_true, Bool.true_and, if_true]
      rw [hlatest]
      rw [hfilter, hprices]
      rw [if_pos hlt]
      rw [hlen]
      simp
    · intro h1
      have hrest : rest = [] := by
        simpa using h1
      subst hrest
      have hnlt : ¬ (1 < (recentCloses c [p]).length) := by
        simp [recentCloses]
      simp only [orchestrate_query, hq, historicalResponse, hnote, hinfo, hts,
        tsTruthy, AVData.isTruthy, Option.isSome_some, Bool.or_true,
        Option.getD_some, List.headD_cons, List.isEmpty_cons, Bool.not_false,
        Bool.and_true, Bool.true_and, if_true]
      rw [hlatest]
      rw [hfilter, hprices]
      rw [if_neg hnlt]
      simp
  · intro habs
    rcases habs with h | h
    · simp [orchestrate_query, hq, historicalResponse, hnote, hinfo, h,
        tsTruthy]
    · simp [orchestrate_query, hq, historicalResponse, hnote, hinfo, h,
        tsTruthy]

def histSeries : List (String × String) :=
  [("2025-06-04", "103.0"), ("2025-06-03", "101.0"), ("2025-06-02", "100.0")]

def collabHist : Collab :=
  { collab0 with
      getHistoricalData := fun _ => ⟨none, none, none, none, some histSeries⟩,
      pfloat := fun s => if s = "103.0" then 103 else if s = "101.0" then 101 else 100 }

/-- Witness for C5 at a three-day series. -/
theorem claim5_historical_change_witness :
    orchestrate_query collabHist "historical data for IBM" =
      "Historical performance for " ++ "IBM" ++ ": Latest close on " ++
        "2025-06-04" ++ " was " ++ "103.0" ++ ". Over the last " ++
        toString (min 7 histSeries.length) ++ " days, it changed by " ++
        collabHist.fmtPct (((recentCloses collabHist histSeries).headD 0 -
            (recentCloses collabHist histSeries).getLastD 0) /
          (recentCloses collabHist histSeries).getLastD 0 * 100) ++ "%." :=
  ((claim5_historical_change collabHist "historical data for IBM" "IBM"
      (by decide) (by decide) (by decide)).1 ("2025-06-04", "103.0")
      [("2025-06-03", "101.0"), ("2025-06-02", "100.0")] rfl (by decide)).1
    (by decide)

/-! ## C6 and C7: soundness and completeness of the ticker matcher -/

/-- The word list `s` occurs verbatim in `q` starting at index `i`. -/
def occursAt (q : List Char) (i : Nat) (s : List Char) : Prop :=
  listIsPre s (q.drop i) = true

theorem upRun_isPre (l : List Char) : listIsPre (upRun l) l = true := by
  induction l with
  | nil => rfl
  | cons c cs ih =>
    by_cases hc : c.isUpper
    · simp [upRun, hc, listIsPre, ih]
    · simp [upRun, hc, listIsPre]

theorem upRun_upper (l : List Char) : ∀ c ∈ upRun l, c.isUpper = true := by
  induction l with
  | nil => simp [upRun]
  | cons c cs ih =>
    by_cases hc : c.isUpper
    · simp only [upRun, hc, if_true]
      intro x hx
      rcases List.mem_cons.mp hx with rfl | hx2
      · exact hc
      · exact ih x hx2
    · simp [upRun, hc]

theorem tokenHere_sound (pw : Bool) (l tok : List Char)
    (h : tokenHere pw l = some tok) :
    listIsPre tok l = true ∧ tok ≠ [] ∧ ∀ c ∈ tok, c.isUpper = true := by
  simp only [tokenHere] at h
  split at h
  · rename_i hcond
    have htok : tok = upRun l := by
      injection h with h2
      exact h2.symm
    subst htok
    refine ⟨upRun_isPre l, ?_, upRun_upper l⟩
    intro hnil
    rw [hnil] at hcond
    simp at hcond
  · exact absurd h (by simp)

theorem scanTicker_sound (l : List Char) :
    ∀ pw tok, scanTicker pw l = some tok →
      ∃ g, listIsPre tok (l.drop g) = true ∧ tok ≠ [] ∧
        ∀ c ∈ tok, c.isUpper = true := by
  induction l with
  | nil =>
    intro pw tok h
    simp [scanTicker] at h
  | cons c cs ih =>
    intro pw tok h
    cases htk : tokenHere pw (c :: cs) with
    | some tk =>
      simp only [scanTicker, htk] at h
      cases h
      obtain ⟨hpre, hne, hup⟩ := tokenHere_sound pw (c :: cs) _ htk
      exact ⟨0, by simpa using hpre, hne, hup⟩
    | none =>
      simp only [scanTicker, htk] at h
      by_cases hc : c = '\n'
      · rw [if_pos hc] at h
        exact absurd h (by simp)
      · rw [if_neg hc] at h
        obtain ⟨g, hg, hne, hup⟩ := ih (isWordC c) tok h
        exact ⟨g + 1, by simpa using hg, hne, hup⟩

theorem findTrig_sound (l t : List Char) (h : findTrig l = some t) :
    t ∈ triggers ∧ listIsPre t l = true := by
  unfold findTrig at h
  have h1 := List.mem_of_find?_eq_some h
  have h2 := List.find?_some h
  exact ⟨h1, h2⟩

theorem searchStock_sound (q : List Char) :
    ∀ t tok, searchStock q = some (t, tok) →
      ∃ i g, t ∈ triggers ∧ occursAt q i t ∧
        occursAt q (i + t.length + g) tok ∧ tok ≠ [] ∧
        ∀ c ∈ tok, c.isUpper = true := by
  induction q with
  | nil =>
    intro t tok h
    simp [searchStock] at h
  | cons c cs ih =>
    intro t tok h
    cases hft : findTrig (c :: cs) with
    | some t0 =>
      cases hsc : scanTicker true ((c :: cs).drop t0.length) with
      | some tok0 =>
        simp only [searchStock, hft, hsc] at h
        cases h
        obtain ⟨hmem, hpre⟩ := findTrig_sound (c :: cs) _ hft
        obtain ⟨g, hg, hne, hup⟩ :=
          scanTicker_sound ((c :: cs).drop t.length) true _ hsc
        refine ⟨0, g, hmem, by simpa [occursAt] using hpre, ?_, hne, hup⟩
        unfold occursAt
        rw [Nat.zero_add, ← List.drop_drop g t.length]
        exact hg
      | none =>
        simp only [searchStock, hft, hsc] at h
        obtain ⟨i, g, hmem, ho1, ho2, hne, hup⟩ := ih t tok h
        refine ⟨i + 1, g, hmem, ?_, ?_, hne, hup⟩
        · unfold occursAt at ho1 ⊢
          simpa using ho1
        · unfold occursAt at ho2 ⊢
          have he : i + 1 + t.length + g = (i + t.length + g) + 1 := by omega
          rw [he]
          simpa using ho2
    | none =>
      simp only [searchStock, hft] at h
      obtain ⟨i, g, hmem, ho1, ho2, hne, hup⟩ := ih t tok h
      refine ⟨i + 1, g, hmem, ?_, ?_, hne, hup⟩
      · unfold occursAt at ho1 ⊢
        simpa using ho1
      · unfold occursAt at ho2 ⊢
        have he : i + 1 + t.length + g = (i + t.length + g) + 1 := by omega
        rw [he]
        simpa using ho2

theorem toUpper_eq_self (c : Char) (h : c.isUpper = true) : c.toUpper = c := by
  simp only [Char.isUpper, Bool.and_eq_true, decide_eq_true_eq] at h
  have h90 : c.toNat ≤ 90 := h.2
  simp only [Char.toUpper]
  rw [if_neg]
  intro hcon
  omega

/-- C7: whenever the ticker regex matches, the extracted ticker is exactly the
matched token: it occurs verbatim in the query at a position at or after the
end of an occurrence of the matched trigger word (so never before the
trigger), and classification routes to Quote or Historical with exactly that
token; extraction never fabricates a ticker absent from the query. -/
theorem claim7_ticker_extraction_sound (q : String) (t tok : List Char)
    (h : searchStock q.data = some (t, tok)) :
    (∃ i j, t ∈ triggers ∧ occursAt q.data i t ∧ occursAt q.data j tok ∧
      i + t.length ≤ j) ∧
    (classify q = Intent.historical (String.mk tok) ∨
      classify q = Intent.quote (String.mk tok)) := by
  obtain ⟨i, g, hmem, ho1, ho2, hne, hup⟩ := searchStock_sound q.data t tok h
  have hupid : tok.map Char.toUpper = tok := by
    calc tok.map Char.toUpper = tok.map id :=
          List.map_congr_left (fun a ha => toUpper_eq_self a (hup a ha))
      _ = tok := List.map_id tok
  constructor
  · exact ⟨i, i + t.length + g, hmem, ho1, ho2, by omega⟩
  · by_cases hh : (containsL "historical".data (lowerL q.data) ||
        containsL "performance".data (lowerL q.data)) = true
    · left
      simp [classify, h, hh, hupid]
    · right
      have hh2 : (containsL "historical".data (lowerL q.data) ||
          containsL "performance".data (lowerL q.data)) = false :=
        Bool.eq_false_iff.mpr hh
      simp [classify, h, hh2, hupid]

/-- Witness for C7 at the query `price TSLA`. -/
theorem claim7_ticker_extraction_sound_witness :
    (∃ i j, "price".data ∈ triggers ∧ occursAt "price TSLA".data i "price".data ∧
      occursAt "price TSLA".data j "TSLA".data ∧ i + "price".data.length ≤ j) ∧
    (classify "price TSLA" = Intent.historical (String.mk "TSLA".data) ∨
      classify "price TSLA" = Intent.quote (String.mk "TSLA".data)) :=
  claim7_ticker_extraction_sound "price TSLA" "price".data "TSLA".data (by decide)

/-- Word-character status of the position just before index `j` (false at the
start of the string), as the regex word boundary sees it. -/
def prevW (q : List Char) (j : Nat) : Bool :=
  if j = 0 then false else isWordC (q.getD (j - 1) ' ')

/-- The query contains a trigger word occurrence followed, after a
newline-free gap, by a standalone 1..5-letter uppercase token: exactly the
condition under which the stock regex of `orchestrate_query` matches. -/
def hasStockPattern (q : List Char) : Prop :=
  ∃ t i j, t ∈ triggers ∧ occursAt q i t ∧ i + t.length ≤ j ∧
    (∀ m, i + t.length ≤ m → m < j → q.getD m ' ' ≠ '\n') ∧
    (tokenHere (prevW q j) (q.drop j)).isSome = true

theorem tokenHere_nil (pw : Bool) : tokenHere pw [] = none := by
  simp [tokenHere, upRun]

theorem tokenHere_true (l : List Char) : tokenHere true l = none := by
  simp [tokenHere]

theorem getD_drop_char (l : List Char) (n m : Nat) (d : Char) :
    (l.drop n).getD m d = l.getD (n + m) d := by
  simp [List.getD_eq_getElem?_getD, List.getElem?_drop]

theorem scanTicker_complete (g : Nat) :
    ∀ (l : List Char) (pw : Bool),
      (∀ m, m < g → l.getD m ' ' ≠ '\n') →
      (tokenHere (if g = 0 then pw else isWordC (l.getD (g - 1) ' '))
        (l.drop g)).isSome = true →
      (scanTicker pw l).isSome = true := by
  induction g with
  | zero =>
    intro l pw hgap htok
    rw [if_pos rfl, List.drop_zero] at htok
    cases l with
    | nil =>
      rw [tokenHere_nil] at htok
      exact absurd htok (by simp)
    | cons c cs =>
      obtain ⟨tk, htk⟩ := Option.isSome_iff_exists.mp htok
      simp [scanTicker, htk]
  | succ g ih =>
    intro l pw hgap htok
    cases l with
    | nil =>
      rw [List.drop_nil, tokenHere_nil] at htok
      exact absurd htok (by simp)
    | cons c cs =>
      have hc : c ≠ '\n' := by
        have h0 := hgap 0 (Nat.succ_pos g)
        simpa using h0
      cases htk : tokenHere pw (c :: cs) with
      | some tk => simp [scanTicker, htk]
      | none =>
        simp only [scanTicker, htk]
        rw [if_neg hc]
        apply ih cs (isWordC c)
        · intro m hm
          have h1 := hgap (m + 1) (by omega)
          simpa using h1
        · have hdrop : (c :: cs).drop (g + 1) = cs.drop g := rfl
          rw [hdrop] at htok
          rw [if_neg (by omega : ¬ (g + 1 = 0))] at htok
          by_cases hg : g = 0
          · subst hg
            rw [if_pos rfl]
            simpa using htok
          · rw [if_neg hg]
            rcases Nat.exists_eq_succ_of_ne_zero hg with ⟨g2, rfl⟩
            simpa using htok

theorem isPre_getD (t l : List Char) (h : listIsPre t l = true) :
    ∀ m, m < t.length → l.getD m ' ' = t.getD m ' ' := by
  induction t generalizing l with
  | nil => simp
  | cons a as ih =>
    cases l with
    | nil => simp [listIsPre] at h
    | cons b bs =>
      simp only [listIsPre, Bool.and_eq_true, decide_eq_true_eq] at h
      intro m hm
      cases m with
      | zero => simp [h.1.symm]
      | succ m2 =>
        simp only [List.getD_cons_succ]
        exact ih bs h.2 m2 (by simpa using hm)

theorem trig_length_pos (t : List Char) (h : t ∈ triggers) : 1 ≤ t.length := by
  simp only [triggers, List.mem_cons, List.not_mem_nil, or_false] at h
  rcases h with rfl | rfl | rfl | rfl | rfl <;> simp

theorem trig_last_word (t : List Char) (h : t ∈ triggers) :
    isWordC (t.getD (t.length - 1) ' ') = true := by
  simp only [triggers, List.mem_cons, List.not_mem_nil, or_false] at h
  rcases h with rfl | rfl | rfl | rfl | rfl <;> decide

theorem trig_unique (l t1 t2 : List Char)
    (h1 : t1 ∈ triggers) (h2 : t2 ∈ triggers)
    (p1 : listIsPre t1 l = true) (p2 : listIsPre t2 l = true) : t1 = t2 := by
  simp only [triggers, List.mem_cons, List.not_mem_nil, or_false] at h1 h2
  rcases h1 with rfl | rfl | rfl | rfl | rfl <;>
    rcases h2 with rfl | rfl | rfl | rfl | rfl <;>
    first
      | rfl
      | (exfalso
         rcases l with _ | ⟨a, _ | ⟨b, l2⟩⟩ <;>
           simp_all [listIsPre] <;>
           first
             | exact absurd (p1.1.trans p2.1.symm) (by decide)
             | exact absurd (p1.2.1.trans p2.2.1.symm) (by decide))

theorem searchStock_complete (q : List Char) (hp : hasStockPattern q) :
    (searchStock q).isSome = true := by
  induction q with
  | nil =>
    obtain ⟨t, i, j, hmem, hocc, hij, hgap, htok⟩ := hp
    unfold occursAt at hocc
    rw [List.drop_nil] at hocc
    have ht1 := trig_length_pos t hmem
    cases t with
    | nil => simp at ht1
    | cons a as => simp [listIsPre] at hocc
  | cons c cs ih =>
    obtain ⟨t, i, j, hmem, hocc, hij, hgap, htok⟩ := hp
    have ht1 := trig_length_pos t hmem
    by_cases hi : i = 0
    · subst hi
      unfold occursAt at hocc
      rw [List.drop_zero] at hocc
      have hfs : (findTrig (c :: cs)).isSome = true := by
        unfold findTrig
        rw [List.find?_isSome]
        exact ⟨t, hmem, hocc⟩
      obtain ⟨t0, hft⟩ := Option.isSome_iff_exists.mp hfs
      obtain ⟨hmem0, hocc0⟩ := findTrig_sound (c :: cs) t0 hft
      have ht0 : t0 = t := trig_unique (c :: cs) t0 t hmem0 hmem hocc0 hocc
      subst ht0
      cases hpw : prevW (c :: cs) j with
      | true =>
        rw [hpw, tokenHere_true] at htok
        exact absurd htok (by simp)
      | false =>
        rw [hpw] at htok
        have hjgt : t0.length < j := by
          rcases Nat.lt_or_ge t0.length j with hlt | hge
          · exact hlt
          · exfalso
            have hj : j = t0.length := by omega
            subst hj
            unfold prevW at hpw
            rw [if_neg (by omega : ¬ (t0.length = 0))] at hpw
            rw [isPre_getD t0 (c :: cs) hocc (t0.length - 1) (by omega)] at hpw
            rw [trig_last_word t0 hmem] at hpw
            simp at hpw
        have hfoldpw : isWordC ((c :: cs).getD (j - 1) ' ') = false := by
          unfold prevW at hpw
          rwa [if_neg (by omega : ¬ (j = 0))] at hpw
        have hscan : (scanTicker true ((c :: cs).drop t0.length)).isSome = true := by
          apply scanTicker_complete (j - t0.length)
          · intro m hm
            rw [getD_drop_char]
            exact hgap (t0.length + m) (by omega) (by omega)
          · rw [if_neg (by omega : ¬ (j - t0.length = 0))]
            rw [getD_drop_char]
            rw [(by omega : t0.length + (j - t0.length - 1) = j - 1)]
            have hdd : ((c :: cs).drop t0.length).drop (j - t0.length) =
                (c :: cs).drop j := by
              rw [List.drop_drop]
              congr 1
              omega
            rw [hdd, hfoldpw]
            exact htok
        obtain ⟨tok0, hsc⟩ := Option.isSome_iff_exists.mp hscan
        simp [searchStock, hft, hsc]
    · have hcs : hasStockPattern cs := by
        refine ⟨t, i - 1, j - 1, hmem, ?_, by omega, ?_, ?_⟩
        · unfold occursAt at hocc ⊢
          rcases Nat.exists_eq_succ_of_ne_zero hi with ⟨i2, rfl⟩
          simpa using hocc
        · intro m h1 h2
          have h3 := hgap (m + 1) (by omega) (by omega)
          simpa using h3
        · have hdk : cs.drop (j - 1) = (c :: cs).drop j := by
            rcases Nat.exists_eq_succ_of_ne_zero (by omega : j ≠ 0) with ⟨j2, rfl⟩
            simp
          rw [hdk]
          have hpw2 : prevW cs (j - 1) = prevW (c :: cs) j := by
            unfold prevW
            rw [if_neg (by omega : ¬ (j - 1 = 0)), if_neg (by omega : ¬ (j = 0))]
            rcases Nat.exists_eq_succ_of_ne_zero (by omega : j ≠ 0) with ⟨j2, rfl⟩
            rcases Nat.exists_eq_succ_of_ne_zero (by omega : j2 ≠ 0) with ⟨j3, rfl⟩
            simp [List.getD_cons_succ]
          rw [hpw2]
          exact htok
      have hcss := ih hcs
      cases hft : findTrig (c :: cs) with
      | some t0 =>
        cases hsc : scanTicker true ((c :: cs).drop t0.length) with
        | some tok0 => simp [searchStock, hft, hsc]
        | none =>
          simp only [searchStock, hft, hsc]
          exact hcss
      | none =>
        simp only [searchStock, hft]
        exact hcss

/-- C6: every query that contains a trigger word followed later by a
standalone 1..5-letter uppercase token (the condition of classification rule
1) and also contains a news keyword is routed to the quote or historical path,
never to the news path: rule 1 takes priority over the later rules. -/
theorem claim6_rule_one_priority (q : String)
    (hp : hasStockPattern q.data)
    (hnews : containsL "news".data (lowerL q.data) = true ∨
      containsL "headlines".data (lowerL q.data) = true ∨
      containsL "filings".data (lowerL q.data) = true) :
    (∃ tk, classify q = Intent.historical tk ∨ classify q = Intent.quote tk) ∧
    ∀ topic, classify q ≠ Intent.news topic := by
  have hs := searchStock_complete q.data hp
  obtain ⟨⟨t, tok⟩, hst⟩ := Option.isSome_iff_exists.mp hs
  constructor
  · refine ⟨String.mk (tok.map Char.toUpper), ?_⟩
    by_cases hh : (containsL "historical".data (lowerL q.data) ||
        containsL "performance".data (lowerL q.data)) = true
    · left
      simp [classify, hst, hh]
    · right
      simp [classify, hst, Bool.eq_false_iff.mpr hh]
  · intro topic
    by_cases hh : (containsL "historical".data (lowerL q.data) ||
        containsL "performance".data (lowerL q.data)) = true
    · simp [classify, hst, hh]
    · simp [classify, hst, Bool.eq_false_iff.mpr hh]

/-- Witness for C6 at the query `stock news TSLA`, which matches both rule 1
and the news keyword rule. -/
theorem claim6_rule_one_priority_witness :
    (∃ tk, classify "stock news TSLA" = Intent.historical tk ∨
      classify "stock news TSLA" = Intent.quote tk) ∧
    ∀ topic, classify "stock news TSLA" ≠ Intent.news topic :=
  claim6_rule_one_priority "stock news TSLA"
    ⟨['s', 't', 'o', 'c', 'k'], 0, 11, by decide, by unfold occursAt; decide,
      by decide,
      by
        intro m h1 h2
        interval_cases m <;> decide,
      by decide⟩
    (Or.inl (by decide))
